import Mathlib

/-!
Verification of the geli user controller and the course media manager
component against their natural-language specification.

The definitions below are shallow embeddings of the TypeScript source:

* `cleanUserObject`, `searchUser`, `updateUser`, `deleteUser` embed the
  handlers of `src/api/src/controllers/UserController.ts`;
* `changeDirectory`, `toggleSelection`, `removeSelectedFile` embed the
  methods of the course media manager Angular component.

JavaScript strings are Lean `String`; a value that may be `null` or
`undefined` is an `Option`.  Database access is modelled by passing the
list of stored user records explicitly; thrown `BadRequestError`,
`ForbiddenError` and `InternalServerError` values become `Except` errors.
-/

/-- A stored user record (the mongoose `User` document), restricted to the
fields the controller logic reads: `_id`, `uid`, `email`, `role` and the
stored `password` hash. -/
structure StoredUser where
  _id : String
  uid : Option String
  email : String
  role : String
  password : String
deriving DecidableEq, Repr

/-- The authenticated current user (`IUser`), restricted to the fields the
controller logic reads. -/
structure CUser where
  _id : String
  role : String
deriving DecidableEq, Repr

/-- The `PUT /users/:id` request body (`newUser`): the `_id` carried in the
payload, plus the fields the handler inspects.  `password` and
`currentPassword` are `Option` because the client may omit them. -/
structure NewUser where
  _id : String
  uid : Option String
  email : String
  role : String
  password : Option String
  currentPassword : Option String
deriving DecidableEq, Repr

/-- `cleanUserObject` from `UserController.ts`: blanks the password and,
when the guard holds, nulls the uid.  The guard is transcribed verbatim
from the source, including the disjunction
`currentUser.role !== teacher || currentUser.role !== admin`. -/
def cleanUserObject (id : String) (user : StoredUser) (currentUser : CUser) : StoredUser :=
  let user1 := { user with password := "" }
  if currentUser._id ≠ id ∧ (currentUser.role ≠ "teacher" ∨ currentUser.role ≠ "admin") then
    { user1 with uid := none }
  else
    user1

/-- The errors `searchUser` can raise.  `crashTrimUndefined` stands for the
TypeError thrown by `query.trim()` when the query parameter is absent. -/
inductive SearchError where
  | methodNotAllowed
  | emptyQuery
  | crashTrimUndefined
deriving DecidableEq, Repr

/-- `isNullOrUndefined` from node `util`: true exactly on `null` or
`undefined`, here the `none` of an `Option`. -/
def isNullOrUndefined (s : Option String) : Bool :=
  s.isNone

/-- JavaScript `String.prototype.trim`: removes leading and trailing
whitespace, modelled over the character list of the string. -/
def jsTrim (s : String) : String :=
  String.mk (((s.data.dropWhile Char.isWhitespace).reverse.dropWhile Char.isWhitespace).reverse)

/-- The request-validation prefix of `searchUser` from `UserController.ts`.
The role guard and the empty-query guard are transcribed in source order:
the query is first reassigned to its trimmed value, and only then tested
with `isNullOrUndefined`; at that point the variable holds a `String`, so
the test receives `some` of the trimmed query.  Execution of the actual
database search is abstracted as `Except.ok` carrying the query string the
search is performed with. -/
def searchUser (role : String) (query : Option String) : Except SearchError String :=
  if role ≠ "student" ∧ role ≠ "teacher" then
    .error .methodNotAllowed
  else
    match query with
    | none => .error .crashTrimUndefined
    | some q =>
      let q1 := jsTrim q
      if isNullOrUndefined (some q1) then
        .error .emptyQuery
      else
        .ok q1

/-- A file entry (`IFile`) of the media manager, restricted to the fields
the component reads. -/
structure MFile where
  name : String
  link : String
deriving DecidableEq, Repr

/-- A subdirectory entry of the media manager, restricted to its name. -/
structure MDirectory where
  name : String
deriving DecidableEq, Repr

/-- A directory (`IDirectory`) of the media manager as held in
`currentFolder`: its id, name, files and subdirectories. -/
structure IDirectory where
  _id : String
  name : String
  files : List MFile
  subDirectories : List MDirectory
deriving DecidableEq, Repr

/-- The comparator `sortFnc` defined inside `changeDirectory`: compares the
lowercased names and returns -1, 1 or 0. -/
def sortFnc (aName bName : String) : Int :=
  let aLow := aName.toLower
  let bLow := bName.toLower
  if aLow < bLow then -1
  else if aLow > bLow then 1
  else 0

/-- The ordering induced by `sortFnc` on file entries: an array sorted with
a JavaScript comparator is nondecreasing with respect to comparator values
being at most zero. -/
def fileOrder (a b : MFile) : Prop :=
  sortFnc a.name b.name ≤ 0

/-- The ordering induced by `sortFnc` on subdirectory entries. -/
def dirOrder (a b : MDirectory) : Prop :=
  sortFnc a.name b.name ≤ 0

instance (a b : MFile) : Decidable (fileOrder a b) := by
  unfold fileOrder; infer_instance

instance (a b : MDirectory) : Decidable (dirOrder a b) := by
  unfold dirOrder; infer_instance

/-- `changeDirectory` from the course media manager component: the fetched
directory becomes the current folder with its `files` and
`subDirectories` arrays sorted by `sortFnc`.  `Array.prototype.sort` with
a comparator is modelled as a comparison sort with respect to the
comparator, here insertion sort. -/
def changeDirectory (fetched : IDirectory) : IDirectory :=
  { fetched with
    files := List.insertionSort fileOrder fetched.files,
    subDirectories := List.insertionSort dirOrder fetched.subDirectories }

/-- `toggleSelection` from the course media manager component: a no-op when
`toggleBlocked` is set; otherwise the file is removed from the selection
at its index when present (`indexOf` is `List.length` rather than -1 for
an absent element) and appended when absent. -/
def toggleSelection (toggleBlocked : Bool) (selectedFiles : List MFile) (file : MFile) :
    List MFile :=
  if toggleBlocked then
    selectedFiles
  else
    let position := selectedFiles.indexOf file
    if position ≠ selectedFiles.length then
      selectedFiles.eraseIdx position
    else
      selectedFiles ++ [file]

/-- The observable outcome of a confirmed `removeSelectedFile` run: the
files whose deletion was attempted, in order; the snack-bar notification;
and the selection afterwards. -/
structure RemoveOutcome where
  attempts : List MFile
  message : String
  selectedAfter : List MFile
deriving DecidableEq, Repr

/-- The deletion loop of `removeSelectedFile`: each selected file is passed
to `mediaService.deleteFile` in order; a failure (modelled by the oracle
`deleteOk` returning false) adds the file name to `filesFailed` and the
loop continues.  Returns the attempted files in order and the collected
failed names. -/
def removeLoop (deleteOk : MFile → Bool) : List MFile → List MFile × List String
  | [] => ([], [])
  | f :: rest =>
    let tail := removeLoop deleteOk rest
    if deleteOk f then
      (f :: tail.1, tail.2)
    else
      (f :: tail.1, f.name :: tail.2)

/-- `removeSelectedFile` from the course media manager component, for a
given confirmation-dialog answer and per-file success oracle.  When the
user declines, nothing happens (`none`); otherwise every selected file is
attempted, the notification is the all-success message when nothing
failed and otherwise lists the failed names joined by a comma, and the
selection is cleared. -/
def removeSelectedFile (deleteOk : MFile → Bool) (confirmed : Bool)
    (selectedFiles : List MFile) : Option RemoveOutcome :=
  if confirmed = false then
    none
  else
    let run := removeLoop deleteOk selectedFiles
    some
      { attempts := run.1,
        message :=
          if run.2.length = 0 then
            "Removed all selected files"
          else
            "Could not remove: " ++ String.intercalate ", " run.2,
        selectedAfter := [] }

/-- The edit levels of `updateUser`: the `editLevels` object maps the
roles student, teacher and admin to 0, 1 and 2; `hasOwnProperty` is
`Option.isSome` of this lookup.  The role tutor has no entry. -/
def editLevels (role : String) : Option Nat :=
  if role = "student" then some 0
  else if role = "teacher" then some 1
  else if role = "admin" then some 2
  else none

/-- Modelled from the spec: the `role` enum of the `User` schema, returned
by `GET /users/roles/`.  The `User` model file is not under `src/`; the
spec data model and the apiDoc example in `UserController.ts` list
exactly student, teacher, tutor and admin. -/
def roleEnumValues : List String :=
  ["student", "teacher", "tutor", "admin"]

/-- `getRoles` from `UserController.ts`: returns the enum values of the
role path of the `User` schema. -/
def getRoles : List String :=
  roleEnumValues

/-- Modelled from the spec: `User.checkPrivileges` is defined in the
`User` model, which is not under `src/`; per the spec, acting as admin is
determined by the role, so `userIsAdmin` holds exactly when the current
user has the role admin. -/
def userIsAdmin (u : CUser) : Prop :=
  u.role = "admin"

instance (u : CUser) : Decidable (userIsAdmin u) :=
  inferInstanceAs (Decidable (u.role = "admin"))

/-- JavaScript truthiness of a nullable string: `null`/`undefined` and the
empty string are falsy. -/
def jsTruthy (s : Option String) : Prop :=
  match s with
  | none => False
  | some v => v ≠ ""

instance (s : Option String) : Decidable (jsTruthy s) := by
  unfold jsTruthy
  match s with
  | none => exact inferInstance
  | some v => exact inferInstance

/-- The errors `updateUser` can raise, in source order.  `crashNoTarget`
stands for the TypeError thrown when `User.findById(id)` yields no record
and `oldUser.role` is read from `null`. -/
inductive UpdateError where
  | invalidUpdateRole
  | invalidCurrentRole
  | selfRoleChange
  | duplicateEmail
  | crashNoTarget
  | invalidOldRole
  | insufficientLevel
  | forbiddenRoleChange
  | forbiddenUidChange
  | invalidCurrentPassword
deriving DecidableEq, Repr

/-- The password step at the end of `updateUser`: an absent or empty
payload password is deleted from the payload; otherwise the previous
password is validated through the oracle `pwValid`, which stands for
`oldUser.isValidPassword(newUser.currentPassword)`.  On success the final
payload passed to `findOneAndUpdate` is returned. -/
def updateUserPassword (pwValid : Option String → String → Bool)
    (newUser : NewUser) (oldUser : StoredUser) : Except UpdateError NewUser :=
  if newUser.password = none ∨ newUser.password = some "" then
    .ok { newUser with password := none }
  else if pwValid newUser.currentPassword oldUser.password then
    .ok newUser
  else
    .error .invalidCurrentPassword

/-- The part of `updateUser` from the `User.findById(id)` lookup onwards:
the old-role check, the three non-admin authorization checks (the
`!currentUserIsAdmin` guard is distributed over the three conditions),
the preservation of a truthy stored uid against a `null` payload uid, and
the password handling of `updateUserPassword`. -/
def updateUserRest (db : List StoredUser) (pwValid : Option String → String → Bool)
    (id : String) (newUser : NewUser) (currentUser : CUser) (currentEditLevel : Nat) :
    Except UpdateError NewUser :=
  match db.find? (fun u => u._id == id) with
  | none => .error .crashNoTarget
  | some oldUser =>
    if (editLevels oldUser.role).isNone then
      .error .invalidOldRole
    else if ¬ userIsAdmin currentUser ∧
        currentEditLevel ≤ (editLevels oldUser.role).getD 0 ∧ ¬ id = currentUser._id then
      .error .insufficientLevel
    else if ¬ userIsAdmin currentUser ∧ newUser.role ≠ oldUser.role then
      .error .forbiddenRoleChange
    else if ¬ userIsAdmin currentUser ∧ newUser.uid ≠ oldUser.uid then
      .error .forbiddenUidChange
    else
      updateUserPassword pwValid
        (if jsTruthy oldUser.uid ∧ newUser.uid = none then
          { newUser with uid := oldUser.uid }
        else
          newUser)
        oldUser

/-- `updateUser` from `UserController.ts`: validation of the payload role
and the current role against `editLevels`, the self-role-change guard,
the duplicate-email query (which excludes records whose `_id` equals the
payload `_id`), then `updateUserRest`. -/
def updateUser (db : List StoredUser) (pwValid : Option String → String → Bool)
    (id : String) (newUser : NewUser) (currentUser : CUser) :
    Except UpdateError NewUser :=
  if (editLevels newUser.role).isNone then
    .error .invalidUpdateRole
  else if (editLevels currentUser.role).isNone then
    .error .invalidCurrentRole
  else if id = currentUser._id ∧ currentUser.role ≠ newUser.role then
    .error .selfRoleChange
  else if ∃ u ∈ db, u.email = newUser.email ∧ u._id ≠ newUser._id then
    .error .duplicateEmail
  else
    updateUserRest db pwValid id newUser currentUser ((editLevels currentUser.role).getD 0)

/-- The error `deleteUser` can raise. -/
inductive DeleteError where
  | lastAdmin
deriving DecidableEq, Repr

/-- `deleteUser` from `UserController.ts`: the admin-role users are
fetched; when they are exactly one record whose id is the target id (the
role conjunct of the guard is transcribed although the filter already
ensures it), the deletion is rejected, otherwise `findByIdAndRemove`
removes the record and `{result: true}` is returned, modelled as `ok` of
the remaining records. -/
def deleteUser (db : List StoredUser) (id : String) : Except DeleteError (List StoredUser) :=
  match db.filter (fun u => u.role == "admin") with
  | [a] =>
    if a._id = id ∧ a.role = "admin" then
      .error .lastAdmin
    else
      .ok (db.eraseP (fun u => u._id == id))
  | _ => .ok (db.eraseP (fun u => u._id == id))

/-- Claim C1: the spec states that after a picture upload the cleaned user
object has its password blanked and its uid nulled unless the viewer is
the subject or has role teacher or admin.  The code disagrees: the guard
`currentUser.role !== teacher || currentUser.role !== admin` is a
tautology, so the uid is nulled for every viewer other than the subject.
Here an admin viewer (id `bbb`) receives the user `aaa` with the uid
nulled, contradicting the claim. -/
theorem cleanUserObject_nulls_uid_for_admin_viewer :
    cleanUserObject "aaa"
      { _id := "aaa", uid := some "123456", email := "student1@test.local",
        role := "student", password := "hash" }
      { _id := "bbb", role := "admin" } =
    { _id := "aaa", uid := none, email := "student1@test.local",
      role := "student", password := "" } := by
  decide

/-- Claim C2: the spec states that an empty query string is rejected with a
bad-request error.  The code disagrees: the emptiness test
`isNullOrUndefined(query)` runs after `query = query.trim()`, at which
point the variable always holds a string, so the guard never fires and the
role-filtered search is performed with the empty query. -/
theorem searchUser_empty_query_performs_search :
    searchUser "student" (some "") = .ok "" := by
  rfl

/-- The comparator value of `sortFnc` is at most zero exactly when the
lowercased first name is at most the lowercased second name. -/
theorem sortFnc_le_zero_iff (a b : String) :
    sortFnc a b ≤ 0 ↔ a.toLower ≤ b.toLower := by
  simp only [sortFnc]
  split_ifs with h1 h2
  · exact iff_of_true (by norm_num) (le_of_lt h1)
  · exact iff_of_false (by norm_num) (not_le.mpr h2)
  · exact iff_of_true le_rfl (le_of_not_lt h2)

/-- Claim C8: after `changeDirectory`, for any input ordering of the
fetched contents, both the file list and the subdirectory list of the
current folder are nondecreasing under comparison of lowercased names. -/
theorem changeDirectory_sorts_case_insensitively (fetched : IDirectory) :
    List.Sorted (fun a b : MFile => a.name.toLower ≤ b.name.toLower)
      (changeDirectory fetched).files ∧
    List.Sorted (fun a b : MDirectory => a.name.toLower ≤ b.name.toLower)
      (changeDirectory fetched).subDirectories := by
  haveI : IsTotal MFile fileOrder :=
    ⟨fun a b => by simp only [fileOrder, sortFnc_le_zero_iff]; exact le_total _ _⟩
  haveI : IsTrans MFile fileOrder :=
    ⟨fun a b c hab hbc => by
      simp only [fileOrder, sortFnc_le_zero_iff] at hab hbc ⊢
      exact le_trans hab hbc⟩
  haveI : IsTotal MDirectory dirOrder :=
    ⟨fun a b => by simp only [dirOrder, sortFnc_le_zero_iff]; exact le_total _ _⟩
  haveI : IsTrans MDirectory dirOrder :=
    ⟨fun a b c hab hbc => by
      simp only [dirOrder, sortFnc_le_zero_iff] at hab hbc ⊢
      exact le_trans hab hbc⟩
  constructor
  · exact (List.sorted_insertionSort fileOrder fetched.files).imp
      (fun h => (sortFnc_le_zero_iff _ _).mp h)
  · exact (List.sorted_insertionSort dirOrder fetched.subDirectories).imp
      (fun h => (sortFnc_le_zero_iff _ _).mp h)

/-- The deletion loop attempts exactly the given files in order, and the
collected failure names are exactly the names of the files the oracle
fails on, in order. -/
theorem removeLoop_spec (deleteOk : MFile → Bool) (l : List MFile) :
    removeLoop deleteOk l =
      (l, (l.filter (fun f => !(deleteOk f))).map (fun f => f.name)) := by
  induction l with
  | nil => rfl
  | cons f rest ih =>
    simp only [removeLoop, ih, List.filter_cons]
    cases h : deleteOk f <;> simp [h]

/-- Claim C9: in a confirmed bulk deletion, every selected file is
attempted exactly once in sequence regardless of earlier failures, and
the notification is the all-success summary when nothing failed and
otherwise names exactly the files whose deletion failed. -/
theorem removeSelectedFile_best_effort (deleteOk : MFile → Bool) (selected : List MFile) :
    removeSelectedFile deleteOk true selected =
      some
        { attempts := selected,
          message :=
            if ∀ f ∈ selected, deleteOk f = true then
              "Removed all selected files"
            else
              "Could not remove: " ++ String.intercalate ", "
                ((selected.filter (fun f => !(deleteOk f))).map (fun f => f.name)),
          selectedAfter := [] } := by
  simp only [removeSelectedFile, removeLoop_spec]
  by_cases h : ∀ f ∈ selected, deleteOk f = true
  · have hnil : selected.filter (fun f => !(deleteOk f)) = [] :=
      List.filter_eq_nil_iff.mpr (fun a ha => by simp [h a ha])
    simp only [hnil]
    rw [if_pos h]
    simp
  · have hne : selected.filter (fun f => !(deleteOk f)) ≠ [] := by
      intro hc
      exact h (fun a ha => by
        have hx := (List.filter_eq_nil_iff.mp hc) a ha
        simpa using hx)
    have hlen : ((selected.filter (fun f => !(deleteOk f))).map (fun f => f.name)).length ≠ 0 := by
      simp [List.length_eq_zero, hne]
    simp [h, hlen]

/-- Unfolding of an unblocked `toggleSelection`: it erases the file when
present and appends it when absent. -/
theorem toggleSelection_false_eq (s : List MFile) (f : MFile) :
    toggleSelection false s f = if f ∈ s then s.erase f else s ++ [f] := by
  simp only [toggleSelection, Bool.false_eq_true, if_false]
  by_cases h : f ∈ s
  · rw [if_pos h, if_pos (Nat.ne_of_lt (List.indexOf_lt_length.mpr h))]
    exact List.eraseIdx_indexOf_eq_erase f s
  · rw [if_neg h, if_neg (by simp [List.indexOf_eq_length.mpr h])]

/-- Claim C10: with `toggleBlocked` false, `toggleSelection` flips the
membership of the given file in the selection, leaves every other file
unchanged, and applied twice restores the original membership; with
`toggleBlocked` true it leaves the selection unchanged.  The selection
holds no duplicates, which the component guarantees because files are
only appended when absent. -/
theorem toggleSelection_involution (s : List MFile) (f : MFile) (hnd : s.Nodup) :
    toggleSelection true s f = s ∧
    (f ∈ toggleSelection false s f ↔ f ∉ s) ∧
    (∀ g : MFile, g ≠ f → (g ∈ toggleSelection false s f ↔ g ∈ s)) ∧
    (∀ g : MFile, g ∈ toggleSelection false (toggleSelection false s f) f ↔ g ∈ s) := by
  refine ⟨rfl, ?_, ?_, ?_⟩
  · rw [toggleSelection_false_eq]
    by_cases h : f ∈ s
    · simp [h, hnd.mem_erase_iff]
    · simp [h]
  · intro g hg
    rw [toggleSelection_false_eq]
    by_cases h : f ∈ s
    · simp [h, hnd.mem_erase_iff, hg]
    · simp [h, hg]
  · intro g
    by_cases h : f ∈ s
    · rw [toggleSelection_false_eq s f, if_pos h,
        toggleSelection_false_eq (s.erase f) f,
        if_neg (by simp [hnd.mem_erase_iff])]
      by_cases hg : g = f
      · subst hg; simp [h]
      · simp [hnd.mem_erase_iff, hg]
    · rw [toggleSelection_false_eq s f, if_neg h,
        toggleSelection_false_eq (s ++ [f]) f,
        if_pos (by simp)]
      rw [List.erase_append_right _ h]
      simp

/-- Witness for `toggleSelection_involution` at a concrete selection. -/
theorem toggleSelection_involution_witness :
    ([{ name := "a.txt", link := "l1" }] : List MFile).Nodup ∧
    ({ name := "a.txt", link := "l1" } ∈
        toggleSelection false [{ name := "a.txt", link := "l1" }]
          { name := "a.txt", link := "l1" } ↔
      ({ name := "a.txt", link := "l1" } : MFile) ∉
        ([{ name := "a.txt", link := "l1" }] : List MFile)) :=
  ⟨by decide,
    (toggleSelection_involution [{ name := "a.txt", link := "l1" }]
      { name := "a.txt", link := "l1" } (by decide)).2.1⟩

/-- `editLevels` has no entry exactly for roles outside student, teacher
and admin. -/
theorem editLevels_eq_none_iff (r : String) :
    editLevels r = none ↔ r ≠ "student" ∧ r ≠ "teacher" ∧ r ≠ "admin" := by
  unfold editLevels
  split_ifs <;> simp_all

/-- Every error of `updateUserRest` is one of the six errors raised after
the old-user lookup. -/
theorem updateUserRest_error_cases (db : List StoredUser)
    (pwValid : Option String → String → Bool) (id : String) (newUser : NewUser)
    (currentUser : CUser) (lvl : Nat) (e : UpdateError)
    (h : updateUserRest db pwValid id newUser currentUser lvl = .error e) :
    e = .crashNoTarget ∨ e = .invalidOldRole ∨ e = .insufficientLevel ∨
      e = .forbiddenRoleChange ∨ e = .forbiddenUidChange ∨ e = .invalidCurrentPassword := by
  unfold updateUserRest updateUserPassword at h
  split at h
  · simp_all
  · split_ifs at h <;> simp_all

/-- With an admin current user `updateUserRest` never raises one of the
three authorization errors. -/
theorem updateUserRest_admin_error_cases (db : List StoredUser)
    (pwValid : Option String → String → Bool) (id : String) (newUser : NewUser)
    (currentUser : CUser) (lvl : Nat) (e : UpdateError)
    (hadm : userIsAdmin currentUser)
    (h : updateUserRest db pwValid id newUser currentUser lvl = .error e) :
    e = .crashNoTarget ∨ e = .invalidOldRole ∨ e = .invalidCurrentPassword := by
  unfold updateUserRest updateUserPassword at h
  split at h
  · simp_all
  · split_ifs at h <;> simp_all

/-- Claim C4 counterexample: the claim states that the invalid-role
rejection fires exactly when the payload role is outside the enumerated
set student, teacher, tutor, admin.  The code disagrees: tutor has no
entry in `editLevels`, so a payload with role tutor is rejected with the
invalid-role error although tutor is one of the enumerated roles. -/
theorem updateUser_rejects_tutor_role :
    updateUser [] (fun _ _ => true) "aaa"
      { _id := "aaa", uid := none, email := "t@test.local", role := "tutor",
        password := none, currentPassword := none }
      { _id := "bbb", role := "admin" } = .error .invalidUpdateRole ∧
    "tutor" ∈ getRoles := by
  exact ⟨rfl, by decide⟩

/-- Claim C4 amended: `updateUser` rejects a payload with the invalid-role
error if and only if the payload role is not one of student, teacher,
admin — the keys of `editLevels`; in particular tutor is rejected even
though the role enum lists it. -/
theorem updateUser_invalid_role_iff (db : List StoredUser)
    (pwValid : Option String → String → Bool) (id : String) (newUser : NewUser)
    (currentUser : CUser) :
    updateUser db pwValid id newUser currentUser = .error .invalidUpdateRole ↔
      newUser.role ≠ "student" ∧ newUser.role ≠ "teacher" ∧ newUser.role ≠ "admin" := by
  rw [← editLevels_eq_none_iff]
  unfold updateUser
  constructor
  · intro h
    by_contra hne
    have hfalse : (editLevels newUser.role).isNone = false := by
      cases hel : editLevels newUser.role with
      | none => exact absurd hel hne
      | some _ => rfl
    rw [if_neg (by simp [hfalse])] at h
    split_ifs at h <;> simp_all
    have hc := updateUserRest_error_cases _ _ _ _ _ _ _ h
    simp at hc
  · intro h
    rw [if_pos (by simp [h])]

/-- Claim C5: for an authorized current user (role student, teacher or
admin, per the route guard) and a payload with a valid update role, a
self-targeted update whose payload role differs from the current role is
rejected with the self-role-change bad-request error, whatever the
current role is; and an update whose payload role equals the current role
is never rejected with that error, so other self fields may be updated. -/
theorem updateUser_self_role_change (db : List StoredUser)
    (pwValid : Option String → String → Bool) (id : String) (newUser : NewUser)
    (currentUser : CUser) :
    ((currentUser.role = "student" ∨ currentUser.role = "teacher" ∨ currentUser.role = "admin") →
      (editLevels newUser.role).isNone = false →
      id = currentUser._id →
      currentUser.role ≠ newUser.role →
      updateUser db pwValid id newUser currentUser = .error .selfRoleChange) ∧
    (currentUser.role = newUser.role →
      updateUser db pwValid id newUser currentUser ≠ .error .selfRoleChange) := by
  constructor
  · intro hcu hnu hid hne
    have hcuFalse : (editLevels currentUser.role).isNone = false := by
      rcases hcu with h | h | h <;> simp [editLevels, h]
    unfold updateUser
    rw [if_neg (by simp [hnu]), if_neg (by simp [hcuFalse]), if_pos ⟨hid, hne⟩]
  · intro heq hcontra
    unfold updateUser at hcontra
    split_ifs at hcontra with h1 h2 h3 h4
    · simp at hcontra
    · simp at hcontra
    · exact h3.2 heq
    · simp at hcontra
    · have hc := updateUserRest_error_cases _ _ _ _ _ _ _ hcontra
      simp at hc

/-- Witness for `updateUser_self_role_change`: an admin targeting
themselves with a payload that changes the role to student is rejected
with the self-role-change error. -/
theorem updateUser_self_role_change_witness :
    updateUser [] (fun _ _ => true) "aaa"
      { _id := "aaa", uid := none, email := "a@test.local", role := "student",
        password := none, currentPassword := none }
      { _id := "aaa", role := "admin" } = .error .selfRoleChange :=
  (updateUser_self_role_change [] (fun _ _ => true) "aaa"
      { _id := "aaa", uid := none, email := "a@test.local", role := "student",
        password := none, currentPassword := none }
      { _id := "aaa", role := "admin" }).1
    (Or.inr (Or.inr rfl)) rfl rfl (by decide)

/-- Claim C3 counterexample: the claim states that the record being
updated is itself excluded from the email uniqueness check, so keeping
the payload email equal to the stored email of the target never triggers
the duplicate-email rejection.  The code disagrees: the query excludes
the record whose `_id` equals the payload `_id`, not the id being
updated.  Here user `aaa` updates themselves keeping their email, but the
payload carries `_id` `bbb`; their own stored record then matches the
query and the call is rejected with the duplicate-email error. -/
theorem updateUser_duplicate_email_counterexample :
    updateUser
      [{ _id := "aaa", uid := some "1", email := "admin@test.local", role := "admin",
         password := "h" }]
      (fun _ _ => true) "aaa"
      { _id := "bbb", uid := some "1", email := "admin@test.local", role := "admin",
        password := none, currentPassword := none }
      { _id := "aaa", role := "admin" } = .error .duplicateEmail := by
  rfl

/-- Claim C3 amended: when the payload role and current role are known to
`editLevels` and the self-role-change guard does not fire, `updateUser`
is rejected with the duplicate-email error exactly when some stored
record whose `_id` differs from the payload `_id` field has the payload
email; the exclusion is keyed on the payload `_id`, not on the id of the
record being updated. -/
theorem updateUser_duplicate_email_iff (db : List StoredUser)
    (pwValid : Option String → String → Bool) (id : String) (newUser : NewUser)
    (currentUser : CUser) :
    (editLevels newUser.role).isNone = false →
    (editLevels currentUser.role).isNone = false →
    ¬ (id = currentUser._id ∧ currentUser.role ≠ newUser.role) →
    (updateUser db pwValid id newUser currentUser = .error .duplicateEmail ↔
      ∃ u ∈ db, u.email = newUser.email ∧ u._id ≠ newUser._id) := by
  intro h1 h2 h3
  unfold updateUser
  rw [if_neg (by simp [h1]), if_neg (by simp [h2]), if_neg h3]
  by_cases hdup : ∃ u ∈ db, u.email = newUser.email ∧ u._id ≠ newUser._id
  · rw [if_pos hdup]
    simp [hdup]
  · rw [if_neg hdup]
    simp only [hdup, iff_false]
    intro hcontra
    have hc := updateUserRest_error_cases _ _ _ _ _ _ _ hcontra
    simp at hc

/-- Witness for `updateUser_duplicate_email_iff`: another stored record
already holds the payload email, so the update is rejected with the
duplicate-email error. -/
theorem updateUser_duplicate_email_iff_witness :
    updateUser
      [{ _id := "ccc", uid := none, email := "dup@test.local", role := "student",
         password := "h" }]
      (fun _ _ => true) "aaa"
      { _id := "aaa", uid := none, email := "dup@test.local", role := "student",
        password := none, currentPassword := none }
      { _id := "aaa", role := "student" } = .error .duplicateEmail :=
  (updateUser_duplicate_email_iff
      [{ _id := "ccc", uid := none, email := "dup@test.local", role := "student",
         password := "h" }]
      (fun _ _ => true) "aaa"
      { _id := "aaa", uid := none, email := "dup@test.local", role := "student",
        password := none, currentPassword := none }
      { _id := "aaa", role := "student" } rfl rfl (by simp)).mpr
    ⟨{ _id := "ccc", uid := none, email := "dup@test.local", role := "student",
       password := "h" }, by simp, by simp⟩

/-- Claim C6: a non-admin actor (student or teacher, per the route guard)
updating another user with a valid payload role, no duplicate email, and
an existing target of known role, is rejected with one of the forbidden
errors whenever the payload role differs from the stored role or the
payload uid differs from the stored uid; and with an admin actor the
role-change and uid-change rejections are never raised. -/
theorem updateUser_role_uid_admin_only (db : List StoredUser)
    (pwValid : Option String → String → Bool) (id : String) (newUser : NewUser)
    (currentUser : CUser) (oldUser : StoredUser) :
    ((currentUser.role = "student" ∨ currentUser.role = "teacher") →
      (editLevels newUser.role).isNone = false →
      id ≠ currentUser._id →
      ¬ (∃ u ∈ db, u.email = newUser.email ∧ u._id ≠ newUser._id) →
      db.find? (fun u => u._id == id) = some oldUser →
      (editLevels oldUser.role).isNone = false →
      (newUser.role ≠ oldUser.role ∨ newUser.uid ≠ oldUser.uid) →
      ∃ e, updateUser db pwValid id newUser currentUser = .error e ∧
        (e = UpdateError.insufficientLevel ∨ e = UpdateError.forbiddenRoleChange ∨
          e = UpdateError.forbiddenUidChange)) ∧
    (userIsAdmin currentUser →
      ∀ e, updateUser db pwValid id newUser currentUser = .error e →
        e ≠ UpdateError.forbiddenRoleChange ∧ e ≠ UpdateError.forbiddenUidChange) := by
  constructor
  · intro hcu hnu hid hdup hfind hold hchange
    have hcuFalse : (editLevels currentUser.role).isNone = false := by
      rcases hcu with h | h <;> simp [editLevels, h]
    have hadm : ¬ userIsAdmin currentUser := by
      rcases hcu with h | h <;> simp [userIsAdmin, h]
    unfold updateUser
    rw [if_neg (by simp [hnu]), if_neg (by simp [hcuFalse]),
      if_neg (fun hc => hid hc.1), if_neg hdup]
    unfold updateUserRest
    rw [hfind]
    dsimp only
    rw [if_neg (by simp [hold])]
    by_cases hle :
        (editLevels currentUser.role).getD 0 ≤ (editLevels oldUser.role).getD 0
    · rw [if_pos ⟨hadm, hle, fun hc => hid hc⟩]
      exact ⟨UpdateError.insufficientLevel, rfl, Or.inl rfl⟩
    · rw [if_neg (fun hc => hle hc.2.1)]
      by_cases hrole : newUser.role ≠ oldUser.role
      · rw [if_pos ⟨hadm, hrole⟩]
        exact ⟨UpdateError.forbiddenRoleChange, rfl, Or.inr (Or.inl rfl)⟩
      · have huid : newUser.uid ≠ oldUser.uid := by
          rcases hchange with h | h
          · exact absurd h hrole
          · exact h
        rw [if_neg (fun hc => hrole hc.2), if_pos ⟨hadm, huid⟩]
        exact ⟨UpdateError.forbiddenUidChange, rfl, Or.inr (Or.inr rfl)⟩
  · intro hadm e he
    unfold updateUser at he
    split_ifs at he with h1 h2 h3 h4
    · simp at he
      simp [← he]
    · simp at he
      simp [← he]
    · simp at he
      simp [← he]
    · simp at he
      simp [← he]
    · have hc := updateUserRest_admin_error_cases _ _ _ _ _ _ _ hadm he
      rcases hc with h | h | h <;> simp [h]

/-- Witness for `updateUser_role_uid_admin_only`: a teacher changing the
uid of a student is rejected with a forbidden error. -/
theorem updateUser_role_uid_admin_only_witness :
    ∃ e,
      updateUser
        [{ _id := "ttt", uid := some "1", email := "x@test.local", role := "student",
           password := "h" }]
        (fun _ _ => true) "ttt"
        { _id := "ttt", uid := some "2", email := "x@test.local", role := "student",
          password := none, currentPassword := none }
        { _id := "me", role := "teacher" } = .error e ∧
      (e = UpdateError.insufficientLevel ∨ e = UpdateError.forbiddenRoleChange ∨
        e = UpdateError.forbiddenUidChange) :=
  (updateUser_role_uid_admin_only
      [{ _id := "ttt", uid := some "1", email := "x@test.local", role := "student",
         password := "h" }]
      (fun _ _ => true) "ttt"
      { _id := "ttt", uid := some "2", email := "x@test.local", role := "student",
        password := none, currentPassword := none }
      { _id := "me", role := "teacher" }
      { _id := "ttt", uid := some "1", email := "x@test.local", role := "student",
        password := "h" }).1
    (Or.inr rfl) rfl (by decide) (by simp) rfl rfl (Or.inr (by decide))

/-- Claim C7: assuming stored ids are unique, `deleteUser` rejects with
the last-admin bad-request error exactly when the target is an admin-role
user and every admin-role user has the target id (the target is the sole
remaining admin); otherwise the deletion proceeds and the call succeeds,
removing the record with the target id. -/
theorem deleteUser_sole_admin (db : List StoredUser) (id : String)
    (hnd : (db.map (fun u => u._id)).Nodup) :
    (deleteUser db id = .error .lastAdmin ↔
      (∃ u ∈ db, u._id = id ∧ u.role = "admin") ∧
        ∀ u ∈ db, u.role = "admin" → u._id = id) ∧
    (¬ ((∃ u ∈ db, u._id = id ∧ u.role = "admin") ∧
          ∀ u ∈ db, u.role = "admin" → u._id = id) →
      deleteUser db id = .ok (db.eraseP (fun u => u._id == id))) := by
  have hmem : ∀ u : StoredUser,
      u ∈ db.filter (fun v => v.role == "admin") ↔ u ∈ db ∧ u.role = "admin" := by
    intro u
    simp [List.mem_filter]
  unfold deleteUser
  rcases hl : db.filter (fun v => v.role == "admin") with _ | ⟨a, _ | ⟨b, t⟩⟩
  · rw [hl]
    dsimp only
    constructor
    · constructor
      · intro h
        exact absurd h (by simp)
      · intro hP
        exfalso
        obtain ⟨⟨u, hu, _, hrole⟩, _⟩ := hP
        have hin : u ∈ db.filter (fun v => v.role == "admin") := (hmem u).mpr ⟨hu, hrole⟩
        rw [hl] at hin
        simp at hin
    · intro _
      rfl
  · rw [hl]
    dsimp only
    have ha : a ∈ db ∧ a.role = "admin" := (hmem a).mp (by rw [hl]; simp)
    by_cases hid : a._id = id
    · rw [if_pos ⟨hid, ha.2⟩]
      have hP : (∃ u ∈ db, u._id = id ∧ u.role = "admin") ∧
          ∀ u ∈ db, u.role = "admin" → u._id = id := by
        refine ⟨⟨a, ha.1, hid, ha.2⟩, ?_⟩
        intro u hu hrole
        have hin : u ∈ db.filter (fun v => v.role == "admin") := (hmem u).mpr ⟨hu, hrole⟩
        rw [hl] at hin
        simp at hin
        subst hin
        exact hid
      exact ⟨iff_of_true rfl hP, fun hnp => absurd hP hnp⟩
    · rw [if_neg (fun hc => hid hc.1)]
      constructor
      · constructor
        · intro h
          exact absurd h (by simp)
        · intro hP
          exfalso
          obtain ⟨⟨u, hu, huid, hrole⟩, _⟩ := hP
          have hin : u ∈ db.filter (fun v => v.role == "admin") := (hmem u).mpr ⟨hu, hrole⟩
          rw [hl] at hin
          simp at hin
          subst hin
          exact hid huid
      · intro _
        rfl
  · rw [hl]
    dsimp only
    constructor
    · constructor
      · intro h
        exact absurd h (by simp)
      · intro hP
        exfalso
        obtain ⟨_, hall⟩ := hP
        have hsub : List.Sublist (db.filter (fun v => v.role == "admin")) db :=
          List.filter_sublist db
        have hmapnd : ((db.filter (fun v => v.role == "admin")).map (fun u => u._id)).Nodup :=
          hnd.sublist (hsub.map (fun u => u._id))
        rw [hl] at hmapnd
        have hnotin : a._id ∉ (b._id :: t.map (fun u => u._id)) :=
          (List.nodup_cons.mp (by simpa using hmapnd)).1
        have haf : a ∈ db ∧ a.role = "admin" := (hmem a).mp (by rw [hl]; simp)
        have hbf : b ∈ db ∧ b.role = "admin" := (hmem b).mp (by rw [hl]; simp)
        have haid : a._id = id := hall a haf.1 haf.2
        have hbid : b._id = id := hall b hbf.1 hbf.2
        exact hnotin (by simp [haid, hbid])
    · intro _
      rfl

/-- Witness for `deleteUser_sole_admin`: with two admin users stored, the
target admin is not the sole admin, so the deletion proceeds. -/
theorem deleteUser_sole_admin_witness :
    deleteUser
      [{ _id := "a1", uid := none, email := "e1@test.local", role := "admin",
         password := "h" },
       { _id := "a2", uid := none, email := "e2@test.local", role := "admin",
         password := "h" }] "a1" =
      .ok [{ _id := "a2", uid := none, email := "e2@test.local", role := "admin",
             password := "h" }] :=
  (deleteUser_sole_admin
      [{ _id := "a1", uid := none, email := "e1@test.local", role := "admin",
         password := "h" },
       { _id := "a2", uid := none, email := "e2@test.local", role := "admin",
         password := "h" }] "a1" (by decide)).2
    (by decide)
